import Mathlib

/-
Verification of the orbit simulator in src/main.rs.

The program integrates the planar motion of a probe around Earth with a
classic fixed-step RK4 scheme over `f64` arithmetic.  The embedding models
`f64` values exactly: a value is either a finite real number, one of the two
infinities, or NaN.  Finite arithmetic is exact real arithmetic (rounding is
abstracted away), while the IEEE 754 special-value rules that the claims
depend on - division of a nonzero finite number by zero yields a signed
infinity, 0/0 yields NaN, infinity times zero yields NaN, and NaN absorbs
every operation - are modelled faithfully.  Zeros are treated as +0, which
matches every value the analysed program actually produces.
-/

/-- Model of an `f64` value: a finite real, plus infinity, minus infinity,
or NaN. -/
inductive FP where
  | fin (x : ℝ)
  | pinf
  | ninf
  | nan
deriving Inhabited

/-- IEEE addition on the model: finite addition is exact, NaN absorbs,
opposite infinities give NaN. -/
noncomputable def FP.add : FP → FP → FP
  | .nan, _ => .nan
  | _, .nan => .nan
  | .pinf, .pinf => .pinf
  | .pinf, .ninf => .nan
  | .ninf, .pinf => .nan
  | .ninf, .ninf => .ninf
  | .pinf, .fin _ => .pinf
  | .ninf, .fin _ => .ninf
  | .fin _, .pinf => .pinf
  | .fin _, .ninf => .ninf
  | .fin a, .fin b => .fin (a + b)

/-- IEEE multiplication on the model: infinity times zero is NaN, otherwise
signs combine as usual. -/
noncomputable def FP.mul : FP → FP → FP
  | .nan, _ => .nan
  | _, .nan => .nan
  | .pinf, .pinf => .pinf
  | .pinf, .ninf => .ninf
  | .ninf, .pinf => .ninf
  | .ninf, .ninf => .pinf
  | .pinf, .fin b => if b = 0 then .nan else if b < 0 then .ninf else .pinf
  | .ninf, .fin b => if b = 0 then .nan else if b < 0 then .pinf else .ninf
  | .fin a, .pinf => if a = 0 then .nan else if a < 0 then .ninf else .pinf
  | .fin a, .ninf => if a = 0 then .nan else if a < 0 then .pinf else .ninf
  | .fin a, .fin b => .fin (a * b)

/-- IEEE division on the model: a nonzero finite number divided by (+)zero
is a signed infinity, 0/0 is NaN, infinity over infinity is NaN. -/
noncomputable def FP.div : FP → FP → FP
  | .nan, _ => .nan
  | _, .nan => .nan
  | .pinf, .pinf => .nan
  | .pinf, .ninf => .nan
  | .ninf, .pinf => .nan
  | .ninf, .ninf => .nan
  | .pinf, .fin b => if b < 0 then .ninf else .pinf
  | .ninf, .fin b => if b < 0 then .pinf else .ninf
  | .fin _, .pinf => .fin 0
  | .fin _, .ninf => .fin 0
  | .fin a, .fin b =>
      if b = 0 then (if a = 0 then .nan else if a < 0 then .ninf else .pinf)
      else .fin (a / b)

/-- IEEE square root on the model: NaN on negative inputs. -/
noncomputable def FP.sqrt : FP → FP
  | .nan => .nan
  | .pinf => .pinf
  | .ninf => .nan
  | .fin a => if a < 0 then .nan else .fin (Real.sqrt a)

/- Constants of src/main.rs, lines 8-14. -/

/-- Gravitational constant, m^3 kg^-1 s^-2 (line 8). -/
noncomputable def G : ℝ := 6.6743e-11

/-- Mass of the Earth (line 9). -/
noncomputable def MASS_EARTH : ℝ := 5.972e24

/-- Radius of the Earth (line 10). -/
noncomputable def EARTH_RADIUS : ℝ := 6.371e6

/-- Fixed integration time step (line 11). -/
noncomputable def DT : ℝ := 10.0

/-- Capacity of the state history ring (line 12). -/
def N_HISTORY : Nat := 21

/-- Number of lookahead steps drawn each frame (line 13). -/
def N_LOOKAHEAD : Nat := 2000

/-- Thrust acceleration magnitude (line 14). -/
noncomputable def THRUST : ℝ := 2.0

/-- The simulation state of src/main.rs lines 25-31: velocity and position
components, in the source field order. -/
structure State where
  vx : FP
  vy : FP
  x : FP
  y : FP

/-- State::new (lines 34-41): builds a state from position then velocity. -/
def State.new (x0 y0 vx0 vy0 : FP) : State :=
  { x := x0, y := y0, vx := vx0, vy := vy0 }

/-- StateHistory (line 44): an array of N_HISTORY optional states. -/
structure StateHistory where
  entries : List (Option State)

/-- StateHistory::new (lines 47-49): every slot starts as None. -/
def StateHistory.new : StateHistory :=
  { entries := List.replicate N_HISTORY none }

/-- StateHistory::push (lines 51-54): rotate_right(1) moves the last slot to
the front and shifts the rest, then slot 0 is overwritten with the new state;
the net effect is to cons the new state and drop the last slot. -/
def StateHistory.push (h : StateHistory) (s : State) : StateHistory :=
  { entries := some s :: h.entries.dropLast }

/-- Repeated pushes, in order: models a sequence of simulation ticks each
recording one state. -/
def pushAll (h : StateHistory) (xs : List State) : StateHistory :=
  xs.foldl (fun b s => b.push s) h

/-- Body (lines 17-23): current state, rolling history, mass and id. -/
structure Body where
  current_state : State
  history : StateHistory
  mass : ℝ
  id : Nat

/-- Body::new (lines 57-74). -/
def Body.new (id : Nat) (mass : ℝ) (x0 y0 vx0 vy0 : FP) : Body :=
  { current_state := State.new x0 y0 vx0 vy0
    history := StateHistory.new
    mass := mass
    id := id }

/-- Body::update_history (lines 76-78): push the current state. -/
def Body.update_history (b : Body) : Body :=
  { b with history := b.history.push b.current_state }

/-- Forcing (lines 81-86): the derivative of a state, in the source field
order ax, ay, vy, vx. -/
structure Forcing where
  ax : FP
  ay : FP
  vy : FP
  vx : FP

/-- impl Add of Forcing for State (lines 88-99): the derivative velocity slot
feeds position, the acceleration slot feeds velocity. -/
noncomputable def State.addForcing (s : State) (rhs : Forcing) : State :=
  { x := FP.add s.x rhs.vx
    y := FP.add s.y rhs.vy
    vx := FP.add s.vx rhs.ax
    vy := FP.add s.vy rhs.ay }

/-- impl Add of Forcing for Forcing (lines 101-112): componentwise. -/
noncomputable def Forcing.add (f g : Forcing) : Forcing :=
  { ax := FP.add f.ax g.ax
    ay := FP.add f.ay g.ay
    vx := FP.add f.vx g.vx
    vy := FP.add f.vy g.vy }

/-- impl Mul of Forcing by a scalar (lines 114-125): componentwise; the
scalar is always a finite constant expression in the program. -/
noncomputable def Forcing.smul (c : ℝ) (f : Forcing) : Forcing :=
  { ax := FP.mul (FP.fin c) f.ax
    ay := FP.mul (FP.fin c) f.ay
    vx := FP.mul (FP.fin c) f.vx
    vy := FP.mul (FP.fin c) f.vy }

/-- forcing (lines 127-145): gravity plus tangential thrust.  The thrust
command is the i8 passed by the caller (-1, 0 or +1). -/
noncomputable def forcing (state : State) (thrust : ℤ) : Forcing :=
  let r := FP.sqrt (FP.add (FP.mul state.x state.x) (FP.mul state.y state.y))
  let v := FP.sqrt (FP.add (FP.mul state.vx state.vx) (FP.mul state.vy state.vy))
  let f := FP.div (FP.fin (-G * MASS_EARTH)) (FP.mul (FP.mul r r) r)
  let thrustx := FP.div (FP.mul (FP.fin ((thrust : ℝ) * THRUST)) state.vx) v
  let thrusty := FP.div (FP.mul (FP.fin ((thrust : ℝ) * THRUST)) state.vy) v
  { ax := FP.add (FP.mul f state.x) thrustx
    ay := FP.add (FP.mul f state.y) thrusty
    vx := state.vx
    vy := state.vy }

/-- rk4 (lines 147-156): one classical fourth-order Runge-Kutta step with
the fixed step DT, the thrust command held constant across the stages, and
the stage sum grouped exactly as in the source. -/
noncomputable def rk4 (state : State) (thrust : ℤ) : State :=
  let k1 := forcing state thrust
  let k2 := forcing (state.addForcing (Forcing.smul (0.5 * DT) k1)) thrust
  let k3 := forcing (state.addForcing (Forcing.smul (0.5 * DT) k2)) thrust
  let k4 := forcing (state.addForcing (Forcing.smul DT k3)) thrust
  state.addForcing (Forcing.smul (DT / 6.0)
    (k1.add ((Forcing.smul 2.0 k2).add ((Forcing.smul 2.0 k3).add k4))))

/-- The thrust command computed from the keyboard in system (lines 180-189):
start at 0, set 1 if Up is pressed, then set -1 if Down is pressed. -/
def thrustCommand (up down : Bool) : ℤ :=
  let t : ℤ := 0
  let t := if up then 1 else t
  let t := if down then -1 else t
  t

/-- The lookahead loop of system (lines 221-231): starting from the local
copy of the just-advanced state, repeatedly overwrite it with a zero-thrust
RK4 step and record each state drawn. -/
noncomputable def lookaheadFrom : Nat → State → List State
  | 0, _ => []
  | n + 1, s =>
    let s2 := rk4 s 0
    s2 :: lookaheadFrom n s2

/-- One iteration of system (lines 178-231) for one body: sample the thrust
command, advance the current state by one RK4 step, record it in the
history, then run the zero-thrust lookahead sweep on a local copy.  Returns
the updated body and the list of lookahead states drawn. -/
noncomputable def tick (body : Body) (up down : Bool) : Body × List State :=
  let thrust := thrustCommand up down
  let new_state := rk4 body.current_state thrust
  let body2 := { body with current_state := new_state }
  let body3 := body2.update_history
  let lookahead := lookaheadFrom N_LOOKAHEAD new_state
  (body3, lookahead)

/- Definitions taken from the wording of the specification, used to state
the refinement claims. -/

/-- Gravitational acceleration as worded in the spec: minus G times M over
r cubed, times the position vector. -/
noncomputable def a_grav (x y : ℝ) : ℝ × ℝ :=
  let r := Real.sqrt (x * x + y * y)
  (-(G * MASS_EARTH / (r * r * r)) * x, -(G * MASS_EARTH / (r * r * r)) * y)

/-- Thrust acceleration as worded in the spec: the signed command times the
thrust magnitude along the unit velocity vector. -/
noncomputable def a_thrust (vx vy : ℝ) (c : ℤ) : ℝ × ℝ :=
  let v := Real.sqrt (vx * vx + vy * vy)
  ((c : ℝ) * THRUST * vx / v, (c : ℝ) * THRUST * vy / v)

/-- The RK4 step as worded in the spec: four stages with coefficients DT/2,
DT/2, DT, and the weighted sum with weights 1, 2, 2, 1 times DT/6, the sum
grouped left to right. -/
noncomputable def rk4_spec (state : State) (thrust : ℤ) : State :=
  let k1 := forcing state thrust
  let k2 := forcing (state.addForcing (Forcing.smul (DT / 2) k1)) thrust
  let k3 := forcing (state.addForcing (Forcing.smul (DT / 2) k2)) thrust
  let k4 := forcing (state.addForcing (Forcing.smul DT k3)) thrust
  state.addForcing (Forcing.smul (DT / 6)
    (((k1.add (Forcing.smul 2 k2)).add (Forcing.smul 2 k3)).add k4))

/-- Concrete sample states used by the buffer witnesses. -/
def sampleStates (n : Nat) : List State :=
  (List.range n).map (fun i => State.new (FP.fin i) (FP.fin 0) (FP.fin 0) (FP.fin 0))

/-- A concrete sample state used by the determinism witness. -/
def sampleState : State :=
  State.new (FP.fin 0) (FP.fin 7) (FP.fin 8) (FP.fin 0)

/-- A sample body with an empty history. -/
def sampleBodyA : Body :=
  { current_state := sampleState, history := StateHistory.new, mass := 1, id := 1 }

/-- A sample body with the same current state but a different history, mass
and id. -/
def sampleBodyB : Body :=
  { current_state := sampleState
    history := StateHistory.new.push sampleState
    mass := 2
    id := 2 }

/- Helper lemmas about the FP model. -/

theorem FP.add_fin_fin (a b : ℝ) : FP.add (FP.fin a) (FP.fin b) = FP.fin (a + b) := rfl

theorem FP.mul_fin_fin (a b : ℝ) : FP.mul (FP.fin a) (FP.fin b) = FP.fin (a * b) := rfl

theorem FP.add_nan_right (x : FP) : FP.add x FP.nan = FP.nan := by
  cases x <;> rfl

theorem FP.add_nan_left (x : FP) : FP.add FP.nan x = FP.nan := by
  cases x <;> rfl

theorem FP.div_fin_fin (a b : ℝ) (hb : b ≠ 0) :
    FP.div (FP.fin a) (FP.fin b) = FP.fin (a / b) := by
  simp [FP.div, hb]

theorem FP.sqrt_fin_nonneg (a : ℝ) (ha : ¬ a < 0) :
    FP.sqrt (FP.fin a) = FP.fin (Real.sqrt a) := by
  simp [FP.sqrt, ha]

theorem FP.add_assoc_model (x y z : FP) :
    FP.add (FP.add x y) z = FP.add x (FP.add y z) := by
  cases x <;> cases y <;> cases z <;> simp [FP.add]
  all_goals ring

theorem Forcing.add_assoc_comp (f g h : Forcing) :
    Forcing.add (Forcing.add f g) h = Forcing.add f (Forcing.add g h) := by
  simp [Forcing.add, FP.add_assoc_model]

/-- C1: rk4 equals the classic fourth-order Runge-Kutta step as worded in
the spec: k1 through k4 are forcing evaluations at the state advanced by
DT/2, DT/2 and DT times the previous stage, and the result is the state
advanced by DT/6 times the weighted stage sum k1 + 2 k2 + 2 k3 + k4, where
adding a derivative to a state feeds the velocity slot into position and
the acceleration slot into velocity. -/
theorem rk4_eq_spec (s : State) (c : ℤ) : rk4 s c = rk4_spec s c := by
  have h2 : (0.5 * DT : ℝ) = DT / 2 := by ring
  have h6 : (DT / 6.0 : ℝ) = DT / 6 := by norm_num
  have htwo : (2.0 : ℝ) = 2 := by norm_num
  simp only [rk4, rk4_spec, h2, h6, htwo]
  rw [Forcing.add_assoc_comp, Forcing.add_assoc_comp]

/-- C8: the thrust command fed to the integrator is +1 when only Up is
pressed, -1 whenever Down is pressed (Down is checked after Up, so a
simultaneous press yields -1), and 0 when neither is pressed; tick feeds
exactly this command to rk4. -/
theorem thrust_command_policy (b : Body) :
    thrustCommand true false = 1 ∧
    thrustCommand false true = -1 ∧
    thrustCommand true true = -1 ∧
    thrustCommand false false = 0 ∧
    ∀ u d : Bool, (tick b u d).1.current_state = rk4 b.current_state (thrustCommand u d) := by
  refine ⟨rfl, rfl, rfl, rfl, ?_⟩
  intro u d
  rfl

/-- C10: after every tick the newest history entry (slot 0) holds exactly
the body's new current state: the tick assigns the RK4 result to
current_state and then pushes that same state. -/
theorem history_head_invariant (b : Body) (u d : Bool) :
    (tick b u d).1.history.entries.head? = some (some ((tick b u d).1.current_state)) := by
  rfl

/-- The lookahead loop computes the iterates of the zero-thrust RK4 step:
entry i is the (i+1)-st iterate of the starting state. -/
theorem lookaheadFrom_eq_iterate (n : Nat) (s : State) :
    lookaheadFrom n s = (List.range n).map (fun i => (fun t => rk4 t 0)^[i + 1] s) := by
  induction n generalizing s with
  | zero => simp [lookaheadFrom]
  | succ n ih =>
    rw [lookaheadFrom, ih, List.range_succ_eq_map]
    simp only [List.map_cons]
    congr 1
    rw [List.map_map]
    apply List.map_congr_left
    intro i _
    simp [Function.comp, Function.iterate_succ_apply]

/-- C3: a tick produces exactly N_LOOKAHEAD lookahead states by repeatedly
applying the zero-thrust RK4 step to a local copy of the just-advanced
state, and the body that comes out of the tick is exactly the advanced
body: current state equal to the RK4 result, history equal to the old
history with that state pushed, mass and id untouched - the prediction
sweep mutates none of them. -/
theorem tick_prediction_pure (b : Body) (u d : Bool) :
    (tick b u d).1.current_state = rk4 b.current_state (thrustCommand u d) ∧
    (tick b u d).1.history = b.history.push (rk4 b.current_state (thrustCommand u d)) ∧
    (tick b u d).1.mass = b.mass ∧
    (tick b u d).1.id = b.id ∧
    (tick b u d).2.length = N_LOOKAHEAD ∧
    (tick b u d).2 = (List.range N_LOOKAHEAD).map
      (fun i => (fun t => rk4 t 0)^[i + 1] (rk4 b.current_state (thrustCommand u d))) := by
  refine ⟨rfl, rfl, rfl, rfl, ?_, ?_⟩
  · show (lookaheadFrom N_LOOKAHEAD (rk4 b.current_state (thrustCommand u d))).length = N_LOOKAHEAD
    rw [lookaheadFrom_eq_iterate]
    rw [List.length_map, List.length_range]
  · exact lookaheadFrom_eq_iterate N_LOOKAHEAD (rk4 b.current_state (thrustCommand u d))

/-- C7: the lookahead prediction is deterministic and depends only on the
body's current state: two bodies with equal current states (histories,
masses and ids possibly different) produce identical prediction sequences
under the same keys, and the RK4 advances agree. -/
theorem prediction_deterministic (b1 b2 : Body) (u d : Bool)
    (h : b1.current_state = b2.current_state) :
    (tick b1 u d).2 = (tick b2 u d).2 ∧
    rk4 b1.current_state (thrustCommand u d) = rk4 b2.current_state (thrustCommand u d) := by
  constructor
  · show lookaheadFrom N_LOOKAHEAD (rk4 b1.current_state (thrustCommand u d)) =
      lookaheadFrom N_LOOKAHEAD (rk4 b2.current_state (thrustCommand u d))
    rw [h]
  · rw [h]

/-- Witness for C7: two concrete bodies sharing a current state but with
different histories, masses and ids. -/
theorem prediction_deterministic_witness :
    sampleBodyA.current_state = sampleBodyB.current_state ∧
    ((tick sampleBodyA true false).2 = (tick sampleBodyB true false).2 ∧
     rk4 sampleBodyA.current_state (thrustCommand true false) =
       rk4 sampleBodyB.current_state (thrustCommand true false)) :=
  ⟨rfl, prediction_deterministic sampleBodyA sampleBodyB true false rfl⟩

/-- Taking n elements of a list appended to a pre-truncated tail is the same
as taking n elements of the untruncated append. -/
theorem take_append_take {α : Type} (A B : List α) (n : Nat) :
    (A ++ B.take n).take n = (A ++ B).take n := by
  rw [List.take_append_eq_append_take, List.take_append_eq_append_take, List.take_take]
  rw [Nat.min_eq_left (Nat.sub_le n A.length)]

/-- Shape of the history after any sequence of pushes into a full-width
buffer: the pushed states in reverse order, then the old slots, truncated to
the capacity. -/
theorem pushAll_entries (xs : List State) (l : List (Option State))
    (hl : l.length = N_HISTORY) :
    (pushAll (StateHistory.mk l) xs).entries =
      (xs.reverse.map some ++ l).take N_HISTORY := by
  induction xs generalizing l with
  | nil =>
    show l = (l.take N_HISTORY)
    rw [← hl, List.take_length]
  | cons x xs ih =>
    have hlen : (some x :: l.dropLast).length = N_HISTORY := by
      rw [List.length_cons, List.length_dropLast, hl]
      decide
    have hstep : pushAll (StateHistory.mk l) (x :: xs) =
        pushAll (StateHistory.mk (some x :: l.dropLast)) xs := rfl
    rw [hstep, ih _ hlen]
    have hdrop : some x :: l.dropLast = (some x :: l).take N_HISTORY := by
      rw [show N_HISTORY = 20 + 1 from rfl, List.take_succ_cons]
      rw [List.dropLast_eq_take, hl]
      rfl
    rw [hdrop, take_append_take]
    rw [List.reverse_cons, List.map_append]
    simp [List.append_assoc]

/-- C4: after pushing more than N_HISTORY states into a fresh buffer, the
buffer holds exactly the last N_HISTORY pushed states in reverse push order
(newest first); everything older has been discarded. -/
theorem history_capacity (xs : List State) (h : N_HISTORY < xs.length) :
    (pushAll StateHistory.new xs).entries = (xs.reverse.take N_HISTORY).map some := by
  have hnew : StateHistory.new = StateHistory.mk (List.replicate N_HISTORY none) := rfl
  rw [hnew, pushAll_entries xs _ (List.length_replicate N_HISTORY none)]
  have hA : N_HISTORY ≤ (xs.reverse.map some).length := by
    rw [List.length_map, List.length_reverse]
    exact Nat.le_of_lt h
  rw [List.take_append_of_le_length hA, List.map_take]

/-- Witness for C4: pushing 22 concrete states overflows the 21-slot buffer
and keeps exactly the newest 21. -/
theorem history_capacity_witness :
    N_HISTORY < (sampleStates 22).length ∧
    (pushAll StateHistory.new (sampleStates 22)).entries =
      ((sampleStates 22).reverse.take N_HISTORY).map some :=
  ⟨by simp only [sampleStates, List.length_map, List.length_range]; decide,
   history_capacity (sampleStates 22)
     (by simp only [sampleStates, List.length_map, List.length_range]; decide)⟩

/-- C6: after fewer than N_HISTORY pushes into a fresh buffer, the buffer
shows exactly the pushed states newest first, and the remaining slots are
still None (absent), not zero-initialised states; with zero pushes every
slot is None. -/
theorem history_partial_fill (xs : List State) (h : xs.length < N_HISTORY) :
    (pushAll StateHistory.new xs).entries =
      xs.reverse.map some ++ List.replicate (N_HISTORY - xs.length) none := by
  have hnew : StateHistory.new = StateHistory.mk (List.replicate N_HISTORY none) := rfl
  rw [hnew, pushAll_entries xs _ (List.length_replicate N_HISTORY none)]
  rw [List.take_append_eq_append_take]
  have hA : (xs.reverse.map some).length = xs.length := by
    rw [List.length_map, List.length_reverse]
  rw [List.take_of_length_le (by rw [hA]; exact Nat.le_of_lt h)]
  rw [List.take_replicate, hA]
  rw [Nat.min_eq_left (Nat.sub_le N_HISTORY xs.length)]

/-- Witness for C6: pushing 2 concrete states fills two slots and leaves 19
None slots. -/
theorem history_partial_fill_witness :
    (sampleStates 2).length < N_HISTORY ∧
    (pushAll StateHistory.new (sampleStates 2)).entries =
      (sampleStates 2).reverse.map some ++ List.replicate (N_HISTORY - (sampleStates 2).length) none :=
  ⟨by simp only [sampleStates, List.length_map, List.length_range]; decide,
   history_partial_fill (sampleStates 2)
     (by simp only [sampleStates, List.length_map, List.length_range]; decide)⟩

/-- Evaluation of forcing on a finite state with nonzero position and
velocity magnitudes: every operation stays finite and exact. -/
theorem forcing_eval (x y vx vy : ℝ) (c : ℤ)
    (hr : x * x + y * y ≠ 0) (hv : vx * vx + vy * vy ≠ 0) :
    forcing (State.new (FP.fin x) (FP.fin y) (FP.fin vx) (FP.fin vy)) c =
      { ax := FP.fin (-G * MASS_EARTH /
          (Real.sqrt (x * x + y * y) * Real.sqrt (x * x + y * y) * Real.sqrt (x * x + y * y)) * x
          + (c : ℝ) * THRUST * vx / Real.sqrt (vx * vx + vy * vy)),
        ay := FP.fin (-G * MASS_EARTH /
          (Real.sqrt (x * x + y * y) * Real.sqrt (x * x + y * y) * Real.sqrt (x * x + y * y)) * y
          + (c : ℝ) * THRUST * vy / Real.sqrt (vx * vx + vy * vy)),
        vy := FP.fin vy,
        vx := FP.fin vx } := by
  have hS : (0 : ℝ) ≤ x * x + y * y := add_nonneg (mul_self_nonneg x) (mul_self_nonneg y)
  have hV : (0 : ℝ) ≤ vx * vx + vy * vy := add_nonneg (mul_self_nonneg vx) (mul_self_nonneg vy)
  have hsr : Real.sqrt (x * x + y * y) ≠ 0 :=
    Real.sqrt_ne_zero'.mpr (lt_of_le_of_ne hS (Ne.symm hr))
  have hsv : Real.sqrt (vx * vx + vy * vy) ≠ 0 :=
    Real.sqrt_ne_zero'.mpr (lt_of_le_of_ne hV (Ne.symm hv))
  have hr3 : Real.sqrt (x * x + y * y) * Real.sqrt (x * x + y * y) * Real.sqrt (x * x + y * y) ≠ 0 :=
    mul_ne_zero (mul_ne_zero hsr hsr) hsr
  simp only [forcing, State.new]
  simp only [FP.mul_fin_fin, FP.add_fin_fin]
  rw [FP.sqrt_fin_nonneg _ (not_lt.mpr hS), FP.sqrt_fin_nonneg _ (not_lt.mpr hV)]
  simp only [FP.mul_fin_fin]
  rw [FP.div_fin_fin _ _ hr3, FP.div_fin_fin _ _ hsv, FP.div_fin_fin _ _ hsv]
  simp only [FP.mul_fin_fin, FP.add_fin_fin]

/-- With zero velocity the thrust term of forcing evaluates 0 / 0 = NaN for
any thrust command, so both acceleration components come out NaN. -/
theorem forcing_vzero_nan (x y : ℝ) (c : ℤ) :
    (forcing (State.new (FP.fin x) (FP.fin y) (FP.fin 0) (FP.fin 0)) c).ax = FP.nan ∧
    (forcing (State.new (FP.fin x) (FP.fin y) (FP.fin 0) (FP.fin 0)) c).ay = FP.nan := by
  simp only [forcing, State.new]
  simp only [FP.mul_fin_fin, FP.add_fin_fin, mul_zero, add_zero, zero_add]
  rw [FP.sqrt_fin_nonneg 0 (by norm_num), Real.sqrt_zero]
  constructor
  · simp [FP.div, FP.add_nan_right]
  · simp [FP.div, FP.add_nan_right]

/-- Counterexample for C2: at position (3, 4) with zero velocity and zero
thrust command - inputs the claim admits, since it only requires nonzero
speed under a nonzero command - the x acceleration is NaN, not the finite
value of the spec formula, so the zero-thrust acceleration has no
magnitude G M over r squared. -/
theorem forcing_spec_gap :
    (forcing (State.new (FP.fin 3) (FP.fin 4) (FP.fin 0) (FP.fin 0)) 0).ax = FP.nan ∧
    FP.nan ≠ FP.fin ((a_grav 3 4).1 + (a_thrust 0 0 0).1) := by
  refine ⟨(forcing_vzero_nan 3 4 0).1, ?_⟩
  intro h
  exact FP.noConfusion h

/-- C2 as amended: for a finite state with nonzero position magnitude and
nonzero velocity magnitude (the extra speed condition is needed even under
zero thrust, see the counterexample), forcing returns the derivative of
the spec: acceleration equal to gravitational plus thrust acceleration and
velocity equal to the input velocity; moreover with zero thrust the
acceleration magnitude is G M over r squared and the acceleration is a
negative multiple of the position vector. -/
theorem forcing_matches_spec (x y vx vy : ℝ) (c : ℤ)
    (hr : x * x + y * y ≠ 0) (hv : vx * vx + vy * vy ≠ 0) :
    forcing (State.new (FP.fin x) (FP.fin y) (FP.fin vx) (FP.fin vy)) c =
      { ax := FP.fin ((a_grav x y).1 + (a_thrust vx vy c).1),
        ay := FP.fin ((a_grav x y).2 + (a_thrust vx vy c).2),
        vy := FP.fin vy,
        vx := FP.fin vx } ∧
    (c = 0 →
      Real.sqrt ((a_grav x y).1 ^ 2 + (a_grav x y).2 ^ 2) = G * MASS_EARTH / (x * x + y * y) ∧
      ∃ k : ℝ, 0 < k ∧ (a_grav x y).1 = -(k * x) ∧ (a_grav x y).2 = -(k * y)) := by
  have hS : (0 : ℝ) ≤ x * x + y * y := add_nonneg (mul_self_nonneg x) (mul_self_nonneg y)
  have hSpos : (0 : ℝ) < x * x + y * y := lt_of_le_of_ne hS (Ne.symm hr)
  have hrpos : 0 < Real.sqrt (x * x + y * y) := Real.sqrt_pos.mpr hSpos
  have hsr : Real.sqrt (x * x + y * y) ≠ 0 := hrpos.ne'
  have hGME : (0 : ℝ) < G * MASS_EARTH := by norm_num [G, MASS_EARTH]
  constructor
  · rw [forcing_eval x y vx vy c hr hv]
    simp only [a_grav, a_thrust, Forcing.mk.injEq, FP.fin.injEq]
    refine ⟨by ring, by ring, trivial, trivial⟩
  · intro hc
    subst hc
    constructor
    · have hinner : (a_grav x y).1 ^ 2 + (a_grav x y).2 ^ 2
          = (G * MASS_EARTH /
              (Real.sqrt (x * x + y * y) * Real.sqrt (x * x + y * y) * Real.sqrt (x * x + y * y))) ^ 2
            * (x * x + y * y) := by
        simp only [a_grav]
        ring
      rw [hinner, Real.sqrt_mul (sq_nonneg _),
        Real.sqrt_sq (div_nonneg hGME.le
          (mul_nonneg (mul_nonneg hrpos.le hrpos.le) hrpos.le))]
      have hrr : Real.sqrt (x * x + y * y) * Real.sqrt (x * x + y * y) = x * x + y * y :=
        Real.mul_self_sqrt hS
      rw [show Real.sqrt (x * x + y * y) * Real.sqrt (x * x + y * y) * Real.sqrt (x * x + y * y)
            = (x * x + y * y) * Real.sqrt (x * x + y * y) from by rw [hrr]]
      rw [div_mul_eq_mul_div]
      rw [mul_div_mul_right _ _ hsr]
    · refine ⟨G * MASS_EARTH /
          (Real.sqrt (x * x + y * y) * Real.sqrt (x * x + y * y) * Real.sqrt (x * x + y * y)),
        div_pos hGME (mul_pos (mul_pos hrpos hrpos) hrpos), ?_, ?_⟩
      · simp only [a_grav]
        ring
      · simp only [a_grav]
        ring

/-- Witness for C2: the amended statement instantiated at position (3, 4),
velocity (1, 0) and zero thrust. -/
theorem forcing_matches_spec_witness :
    ((3 : ℝ) * 3 + 4 * 4 ≠ 0) ∧ ((1 : ℝ) * 1 + 0 * 0 ≠ 0) ∧
    (forcing (State.new (FP.fin 3) (FP.fin 4) (FP.fin 1) (FP.fin 0)) 0 =
      { ax := FP.fin ((a_grav 3 4).1 + (a_thrust 1 0 0).1),
        ay := FP.fin ((a_grav 3 4).2 + (a_thrust 1 0 0).2),
        vy := FP.fin 0,
        vx := FP.fin 1 } ∧
    ((0 : ℤ) = 0 →
      Real.sqrt ((a_grav 3 4).1 ^ 2 + (a_grav 3 4).2 ^ 2) = G * MASS_EARTH / (3 * 3 + 4 * 4) ∧
      ∃ k : ℝ, 0 < k ∧ (a_grav 3 4).1 = -(k * 3) ∧ (a_grav 3 4).2 = -(k * 4))) :=
  ⟨by norm_num, by norm_num,
   forcing_matches_spec 3 4 1 0 0 (by norm_num) (by norm_num)⟩

/-- Counterexample for C5: at position (0, 0) with velocity (1, 0) and zero
thrust the Force Model does not fail fast: it returns a Forcing value
normally, with NaN acceleration components, which the caller then feeds
onward. -/
theorem forcing_origin_returns :
    forcing (State.new (FP.fin 0) (FP.fin 0) (FP.fin 1) (FP.fin 0)) 0 =
      { ax := FP.nan, ay := FP.nan, vy := FP.fin 0, vx := FP.fin 1 } := by
  have h1 : (-G * MASS_EARTH : ℝ) ≠ 0 := by norm_num [G, MASS_EARTH]
  have h2 : (-G * MASS_EARTH : ℝ) < 0 := by norm_num [G, MASS_EARTH]
  simp only [forcing, State.new]
  simp only [FP.mul_fin_fin, FP.add_fin_fin, Int.cast_zero, zero_mul, mul_zero,
    mul_one, one_mul, add_zero, zero_add]
  rw [FP.sqrt_fin_nonneg 0 (by norm_num), Real.sqrt_zero,
    FP.sqrt_fin_nonneg 1 (by norm_num), Real.sqrt_one]
  simp only [FP.mul_fin_fin, mul_zero, zero_mul]
  rw [FP.div_fin_fin 0 1 one_ne_zero]
  rw [show FP.div (FP.fin (-G * MASS_EARTH)) (FP.fin 0) = FP.ninf from by
    norm_num [FP.div, G, MASS_EARTH]]
  simp [FP.mul, FP.add]

/-- C5 as amended: for position (0, 0), any finite velocity and any thrust
command, forcing does not fail fast; it returns a Forcing whose
acceleration components are both NaN (non-finite), so NaN propagates
silently to the integrator, the history and the rendering. -/
theorem forcing_origin_nan (vx vy : ℝ) (c : ℤ) :
    (forcing (State.new (FP.fin 0) (FP.fin 0) (FP.fin vx) (FP.fin vy)) c).ax = FP.nan ∧
    (forcing (State.new (FP.fin 0) (FP.fin 0) (FP.fin vx) (FP.fin vy)) c).ay = FP.nan := by
  have h1 : (-G * MASS_EARTH : ℝ) ≠ 0 := by norm_num [G, MASS_EARTH]
  have h2 : (-G * MASS_EARTH : ℝ) < 0 := by norm_num [G, MASS_EARTH]
  simp only [forcing, State.new]
  simp only [FP.mul_fin_fin, FP.add_fin_fin, mul_zero, zero_mul, add_zero, zero_add]
  rw [FP.sqrt_fin_nonneg 0 (by norm_num), Real.sqrt_zero]
  simp only [FP.mul_fin_fin, mul_zero, zero_mul]
  rw [show FP.div (FP.fin (-G * MASS_EARTH)) (FP.fin 0) = FP.ninf from by
    norm_num [FP.div, G, MASS_EARTH]]
  constructor
  · simp [FP.mul, FP.add_nan_left]
  · simp [FP.mul, FP.add_nan_left]

/-- C9: with nonzero position magnitude but zero velocity, forcing with the
zero thrust command still divides the zero thrust numerator by the zero
speed, and both acceleration components come out NaN instead of the pure
gravitational derivative. -/
theorem forcing_zero_velocity_nan (x y : ℝ) (hr : x * x + y * y ≠ 0) :
    (forcing (State.new (FP.fin x) (FP.fin y) (FP.fin 0) (FP.fin 0)) 0).ax = FP.nan ∧
    (forcing (State.new (FP.fin x) (FP.fin y) (FP.fin 0) (FP.fin 0)) 0).ay = FP.nan :=
  forcing_vzero_nan x y 0

/-- Witness for C9: the zero-velocity NaN result at position (3, 4). -/
theorem forcing_zero_velocity_nan_witness :
    ((3 : ℝ) * 3 + 4 * 4 ≠ 0) ∧
    ((forcing (State.new (FP.fin 3) (FP.fin 4) (FP.fin 0) (FP.fin 0)) 0).ax = FP.nan ∧
     (forcing (State.new (FP.fin 3) (FP.fin 4) (FP.fin 0) (FP.fin 0)) 0).ay = FP.nan) :=
  ⟨by norm_num, forcing_zero_velocity_nan 3 4 (by norm_num)⟩
